import Mathlib

/-!
Verification development for the mall-assistant planning engine.

The definitions below are a shallow embedding of the Python sources:
`mall_tools.py` (catalog search, route planning, route verification) and
`action.py` (tool invocation, result aggregation, time allocation,
response-shape dispatch).  The venue catalog `mall_data.json` is plain
data, so every catalog-reading function is parametrised by an explicit
`catalog : List CShop`.  Python floats occurring in the time allocator
(`scale_factor = budget / needed`, then `int(base * scale_factor)`)
are idealised as exact rational arithmetic, i.e. Nat floor division
`base * budget / needed`; wall-clock datetimes are minutes-since-epoch
naturals, with `datetime.now()` modelled as an explicit `now` argument.
-/

namespace MallAgent

/-- Decidable equality for `Except`, so concrete route results can be
checked by `decide`. -/
instance {ε α : Type} [DecidableEq ε] [DecidableEq α] :
    DecidableEq (Except ε α) := fun a b =>
  match a, b with
  | .ok x, .ok y =>
    if h : x = y then .isTrue (by rw [h])
    else .isFalse (fun hc => h (Except.ok.inj hc))
  | .error x, .error y =>
    if h : x = y then .isTrue (by rw [h])
    else .isFalse (fun hc => h (Except.error.inj hc))
  | .ok _, .error _ => .isFalse (fun hc => Except.noConfusion hc)
  | .error _, .ok _ => .isFalse (fun hc => Except.noConfusion hc)

/-- A catalog shop record from `mall_data.json`, as consumed by
`mall_tools.py` (fields `id`, `name`, `category`, `floor`). -/
structure CShop where
  id : Nat
  name : String
  category : String
  floor : Nat
  deriving Repr, DecidableEq

/-- Shop resolution in `calculate_route`: for each requested id, scan the
catalog and append the first shop with that id (input-id order). -/
def resolveRoute (catalog : List CShop) (shop_ids : List Nat) : List CShop :=
  shop_ids.filterMap (fun i => catalog.find? (fun s => s.id == i))

/-- Shop resolution in `verify_route` and `calculate_accessible_route`:
`[s for s in MALL_DATA["shops"] if s["id"] in shop_ids]` (catalog order). -/
def resolveByMembership (catalog : List CShop) (shop_ids : List Nat) : List CShop :=
  catalog.filter (fun s => shop_ids.contains s.id)

/-- Stable insertion of a shop into a floor-sorted list: the new shop goes
in front of the first element whose floor is not strictly below it, which
keeps earlier elements of equal floor earlier. -/
def insertFloor (s : CShop) : List CShop → List CShop
  | [] => [s]
  | t :: ts => if t.floor < s.floor then t :: insertFloor s ts else s :: t :: ts

/-- Stable sort by floor ascending, the embedding of
`sorted(shops, key=lambda x: x["floor"])` (Python's sort is stable). -/
def sortByFloor : List CShop → List CShop
  | [] => []
  | s :: rest => insertFloor s (sortByFloor rest)

/-- Number of distinct floors touched, `len(set(s["floor"] for s in shops))`. -/
def distinctFloors (shops : List CShop) : Nat :=
  ((shops.map (·.floor)).dedup).length

/-- Insertion step for sorting floor numbers ascending. -/
def insertNatLe (n : Nat) : List Nat → List Nat
  | [] => [n]
  | m :: ms => if m ≤ n then m :: insertNatLe n ms else n :: m :: ms

/-- Insertion sort of floor numbers ascending. -/
def sortNats : List Nat → List Nat
  | [] => []
  | n :: rest => insertNatLe n (sortNats rest)

/-- Sorted list of the distinct floors, `sorted(list(set(...)))`. -/
def floorsVisited (shops : List CShop) : List Nat :=
  sortNats ((shops.map (·.floor)).dedup)

/-- One entry of the `optimized_order` list built by `calculate_route`. -/
structure RouteStop where
  sequence : Nat
  shop_name : String
  floor : Nat
  category : String
  deriving Repr, DecidableEq

/-- The route dictionary returned by `calculate_route`. -/
structure Route where
  total_shops : Nat
  floors_visited : List Nat
  floor_changes : Nat
  optimized_order : List RouteStop
  estimated_time_minutes : Nat
  deriving Repr, DecidableEq

/-- Build the `optimized_order` entries numbered from `n`. -/
def mkRouteStopsFrom (n : Nat) : List CShop → List RouteStop
  | [] => []
  | s :: rest => ⟨n, s.name, s.floor, s.category⟩ :: mkRouteStopsFrom (n + 1) rest

/-- Build the numbered `optimized_order` entries from the sorted shops. -/
def mkRouteStops (shops : List CShop) : List RouteStop :=
  mkRouteStopsFrom 1 shops

/-- Embedding of `calculate_route(shop_ids)` from `mall_tools.py`:
resolve ids in input order, error out when nothing resolves, otherwise
stable-sort by floor and report counts, floors and the 15n + 3f estimate. -/
def calculate_route (catalog : List CShop) (shop_ids : List Nat) :
    Except String Route :=
  let shops := resolveRoute catalog shop_ids
  if shops.isEmpty then
    .error "No valid shops found"
  else
    let sorted_shops := sortByFloor shops
    .ok
      { total_shops := sorted_shops.length
        floors_visited := floorsVisited sorted_shops
        floor_changes := distinctFloors sorted_shops - 1
        optimized_order := mkRouteStops sorted_shops
        estimated_time_minutes :=
          sorted_shops.length * 15 + distinctFloors sorted_shops * 3 }

/-- One entry of the accessible `optimized_order` list. -/
structure AccRouteStop where
  sequence : Nat
  shop_name : String
  floor : Nat
  elevator_to_use : String
  accessible_entrance : String
  rest_area_nearby : String
  deriving Repr, DecidableEq

/-- The `accessibility_features` sub-dictionary of an accessible route. -/
structure AccFeatures where
  elevator_only : Bool
  no_escalators : Bool
  wide_pathways : Bool
  rest_points : Nat
  deriving Repr, DecidableEq

/-- The route dictionary returned by `calculate_accessible_route`. -/
structure AccRoute where
  total_shops : Nat
  floors_visited : List Nat
  accessibility_features : AccFeatures
  optimized_order : List AccRouteStop
  estimated_time_minutes : Nat
  accessibility_notes : List String
  deriving Repr, DecidableEq

/-- Build the accessible `optimized_order` entries numbered from `n`. -/
def mkAccRouteStopsFrom (n : Nat) : List CShop → List AccRouteStop
  | [] => []
  | s :: rest =>
    ⟨n, s.name, s.floor, "Elevator 1 or 2", "Yes",
      "Floor " ++ toString s.floor ++ " seating area"⟩ ::
      mkAccRouteStopsFrom (n + 1) rest

/-- Build the numbered accessible `optimized_order` entries. -/
def mkAccRouteStops (shops : List CShop) : List AccRouteStop :=
  mkAccRouteStopsFrom 1 shops

/-- Embedding of `calculate_accessible_route(shop_ids)` from
`mall_tools.py`: resolve by catalog-order membership, error out when
nothing resolves, otherwise stable-sort by floor and report the
20n + 5f estimate with one rest point per distinct floor. -/
def calculate_accessible_route (catalog : List CShop) (shop_ids : List Nat) :
    Except String AccRoute :=
  let shops := resolveByMembership catalog shop_ids
  if shops.isEmpty then
    .error "No valid shops found"
  else
    let sorted_shops := sortByFloor shops
    .ok
      { total_shops := sorted_shops.length
        floors_visited := floorsVisited sorted_shops
        accessibility_features :=
          { elevator_only := true
            no_escalators := true
            wide_pathways := true
            rest_points := distinctFloors sorted_shops }
        optimized_order := mkAccRouteStops sorted_shops
        estimated_time_minutes :=
          sorted_shops.length * 20 + distinctFloors sorted_shops * 5
        accessibility_notes :=
          ["All routes use elevators only",
           "Wide aisles throughout the path",
           "Accessible restrooms on each floor",
           "Rest areas available every 50 meters"] }

/-- Heterogeneous required/actual values recorded by `verify_route` checks. -/
inductive CheckVal where
  | nat (n : Nat)
  | strs (l : List String)
  | str (s : String)
  deriving Repr, DecidableEq

/-- One per-constraint record appended by `verify_route`. -/
structure Check where
  constraint : String
  required : CheckVal
  actual : CheckVal
  passed : Bool
  deriving Repr, DecidableEq

/-- The constraint dictionary accepted by `verify_route`; `none` models an
absent key. -/
structure Constraints where
  max_floors : Option Nat := none
  max_time_minutes : Option Nat := none
  required_categories : Option (List String) := none
  lower_floors_only : Option Bool := none
  deriving Repr, DecidableEq

/-- The verification dictionary returned by `verify_route`; the error
branch carries `verified = false`, an error message and no checks. -/
structure VerifyResult where
  verified : Bool
  error : Option String
  checks : List Check
  deriving Repr, DecidableEq

/-- Maximum floor among the given shops, `max(floors)` (shops nonempty). -/
def maxFloor (shops : List CShop) : Nat :=
  (shops.map (·.floor)).foldl Nat.max 0

/-- Distinct categories present, `list(set(s["category"] for s in shops))`. -/
def categoriesOf (shops : List CShop) : List String :=
  (shops.map (·.category)).dedup

/-- The checks appended by `verify_route`, in source order: `max_floors`,
`max_time_minutes`, `required_categories`, then `lower_floors_only`
(the last one only when the flag's value is true). -/
def verifyChecks (shops : List CShop) (cs : Constraints) : List Check :=
  (match cs.max_floors with
   | some m =>
     [⟨"max_floors", .nat m, .nat (distinctFloors shops),
       decide (distinctFloors shops ≤ m)⟩]
   | none => []) ++
  (match cs.max_time_minutes with
   | some m =>
     [⟨"max_time_minutes", .nat m,
       .nat (shops.length * 15 + distinctFloors shops * 3),
       decide (shops.length * 15 + distinctFloors shops * 3 ≤ m)⟩]
   | none => []) ++
  (match cs.required_categories with
   | some req =>
     [⟨"required_categories", .strs req.dedup, .strs (categoriesOf shops),
       req.all (fun c => (categoriesOf shops).contains c)⟩]
   | none => []) ++
  (match cs.lower_floors_only with
   | some true =>
     [⟨"lower_floors_only", .str "Floors 1-2",
       .str ("Max floor " ++ toString (maxFloor shops)),
       decide (maxFloor shops ≤ 2)⟩]
   | _ => [])

/-- Embedding of `verify_route(shop_ids, constraints)` from
`mall_tools.py`: resolve by catalog-order membership; when nothing
resolves return the error dictionary, otherwise append one record per
present constraint key and fold the `verified` flag exactly as the
source does (start true, clear on each failed check). -/
def verify_route (catalog : List CShop) (shop_ids : List Nat)
    (cs : Constraints) : VerifyResult :=
  let shops := resolveByMembership catalog shop_ids
  if shops.isEmpty then
    { verified := false, error := some "No valid shops", checks := [] }
  else
    let checks := verifyChecks shops cs
    { verified := checks.foldl (fun v c => v && c.passed) true
      error := none
      checks := checks }

/-! Embedding of `action.py`.  Decoded JSON shop dictionaries may lack an
`id` key, hence `id : Option Nat`; remaining attributes are summarised by
`name` and `category` (the only ones the aggregator and allocator read). -/

/-- A decoded shop record as handled by `_aggregate_tool_results` and
`_calculate_time_allocations` in `action.py`. -/
structure ShopRec where
  id : Option Nat
  name : String
  category : String
  deriving Repr, DecidableEq

/-- Python dict assignment `d[k] = v`: overwrite in place when the key is
already present (keeping its position), otherwise append at the end. -/
def dinsert {α : Type} (d : List (Nat × α)) (k : Nat) (v : α) :
    List (Nat × α) :=
  if d.any (fun p => p.1 == k) then
    d.map (fun p => if p.1 == k then (k, v) else p)
  else
    d ++ [(k, v)]

/-- Association-list lookup matching Python dict read (keys kept unique). -/
def dlookup {α : Type} (d : List (Nat × α)) (k : Nat) : Option α :=
  (d.find? (fun p => p.1 == k)).map (·.2)

/-- One step of the dict comprehension
`{shop['id']: shop for shop in shops if 'id' in shop}`. -/
def dictInsertShop (d : List (Nat × ShopRec)) (s : ShopRec) :
    List (Nat × ShopRec) :=
  match s.id with
  | some k => dinsert d k s
  | none => d

/-- The dedup step of `_aggregate_tool_results`: when the collected shop
list is nonempty, rebuild it as the values of the id-keyed dict
comprehension (later records overwrite earlier ones at the same id). -/
def dedupShopsById (recs : List ShopRec) : List ShopRec :=
  if recs.isEmpty then recs
  else (recs.foldl dictInsertShop []).map (·.2)

/-- One `search_shops` tool outcome as seen by the aggregator: its success
flag and, when the payload parses as a JSON list, the decoded records. -/
structure SearchOutcome where
  success : Bool
  decoded : Option (List ShopRec)
  deriving Repr, DecidableEq

/-- The shop records collected by the aggregation loop: successful
outcomes whose payload decodes contribute their records in order. -/
def collectShops (outs : List SearchOutcome) : List ShopRec :=
  (outs.filterMap (fun o => if o.success then o.decoded else none)).flatten

/-- The `shops` field of the aggregated dataset: collect then deduplicate
by id, as in `_aggregate_tool_results`. -/
def aggregateShops (outs : List SearchOutcome) : List ShopRec :=
  dedupShopsById (collectShops outs)

/-- The category base-duration table `category_times` of
`_calculate_time_allocations`, with `.get(category, 25)` default. -/
def category_times (c : String) : Nat :=
  if c = "Food" then 60
  else if c = "Jewelry" then 35
  else if c = "Fashion" then 30
  else if c = "Toys" then 25
  else if c = "Electronics" then 20
  else if c = "Books" then 20
  else if c = "Home & Garden" then 25
  else if c = "Sports & Outdoors" then 20
  else if c = "Health & Beauty" then 25
  else 25

/-- `total_needed = sum(category_times.get(shop.get('category'), 25) ...)`. -/
def total_needed (shops : List ShopRec) : Nat :=
  (shops.map (fun s => category_times s.category)).sum

/-- The per-stop duration: base scaled by `budget / needed` (scale 1 when
there is no budget, a zero budget — falsy in Python — or zero need),
floored, then clamped to at least 15 minutes.  Python float arithmetic is
idealised as exact Nat floor division. -/
def scaledDuration (budget : Option Nat) (needed base : Nat) : Nat :=
  let d :=
    match budget with
    | some b => if 0 < b then (if 0 < needed then base * b / needed else base)
                else base
    | none => base
  max d 15

/-- One value of the allocation dict: duration plus computed start and
finish times (absolute minutes standing for the rendered clock strings). -/
structure Alloc where
  duration : Nat
  start : Nat
  finish : Nat
  deriving Repr, DecidableEq

/-- The allocation loop of `_calculate_time_allocations`: skip stops with
a missing or zero (falsy) id, give each remaining stop its scaled
duration, stamp the running clock, and advance it by duration plus the
5-minute walking buffer. -/
def allocGo (budget : Option Nat) (needed : Nat)
    (dict : List (Nat × Alloc)) (cur : Nat) :
    List ShopRec → List (Nat × Alloc)
  | [] => dict
  | s :: rest =>
    match s.id with
    | none => allocGo budget needed dict cur rest
    | some i =>
      if i = 0 then allocGo budget needed dict cur rest
      else
        let d := scaledDuration budget needed (category_times s.category)
        allocGo budget needed (dinsert dict i ⟨d, cur, cur + d⟩)
          (cur + d + 5) rest

/-- Embedding of `_calculate_time_allocations(shops, total_time_minutes)`
from `action.py`; `now` is the value the source reads from
`datetime.now()` at the start of the loop. -/
def calculate_time_allocations (shops : List ShopRec)
    (total_time_minutes : Option Nat) (now : Nat) : List (Nat × Alloc) :=
  allocGo total_time_minutes (total_needed shops) [] now shops

/-- The stops the allocation loop does not skip: id present and nonzero
(a zero id is falsy in Python and skipped). -/
def validShops (shops : List ShopRec) : List ShopRec :=
  shops.filter (fun s =>
    match s.id with
    | some i => decide (i ≠ 0)
    | none => false)

/-- Reference form of the allocation list when no id collides: entries in
iteration order, the clock starting at `cur` and advancing by the stop's
duration plus the 5-minute walking buffer. -/
def allocRow (budget : Option Nat) (needed : Nat) (cur : Nat) :
    List ShopRec → List (Nat × Alloc)
  | [] => []
  | s :: rest =>
    match s.id with
    | none => allocRow budget needed cur rest
    | some i =>
      if i = 0 then allocRow budget needed cur rest
      else
        let d := scaledDuration budget needed (category_times s.category)
        (i, ⟨d, cur, cur + d⟩) :: allocRow budget needed (cur + d + 5) rest

/-! Tool invoker embedding.  A backend call either returns a payload or
raises; raised exceptions are valued in `String` (the message `str(e)`). -/

/-- A planned tool call (name plus serialised arguments). -/
structure AToolCall where
  tool_name : String
  arguments : String
  deriving Repr, DecidableEq

/-- The `ToolResult` pydantic model of `action.py`. -/
structure AToolResult where
  tool_name : String
  success : Bool
  data : Option String
  error : Option String
  execution_time_ms : Nat
  deriving Repr, DecidableEq

/-- Embedding of `_execute_tool`: run the backend call, measure `elapsed`,
and package either outcome as a `ToolResult` — the function is total, so
no exception escapes to the caller. -/
def execute_tool (backend : AToolCall → Except String String)
    (c : AToolCall) (elapsed : Nat) : AToolResult :=
  match backend c with
  | .ok d => ⟨c.tool_name, true, some d, none, elapsed⟩
  | .error e => ⟨c.tool_name, false, none, some e, elapsed⟩

/-- Embedding of `execute_parallel`: `asyncio.gather(..,
return_exceptions=True)` yields one result per task in input order, where
`runtime c` is either the task's `ToolResult` or an exception the
concurrency runtime raised for it; the conversion loop turns each
exception into a failed `ToolResult` named after the matching call. -/
def execute_parallel (runtime : AToolCall → Except String AToolResult)
    (calls : List AToolCall) : List AToolResult :=
  calls.map (fun c =>
    match runtime c with
    | .ok r => r
    | .error e => ⟨c.tool_name, false, none, some e, 0⟩)

/-! Response synthesis dispatch (`_synthesize_response`). -/

/-- The aggregated planning dataset, with payloads abstracted to strings
where their content never affects the dispatch. -/
structure Aggregated where
  shops : List ShopRec
  shop_details : List String
  route : Option String
  route_verified : Option Bool
  recommendations : List ShopRec
  facilities : List String
  events : List String
  wait_times : List String
  lost_found : List String
  deriving Repr, DecidableEq

/-- The response shape chosen by the dispatch in `_synthesize_response`. -/
inductive ResponseKind where
  | itinerary
  | shopDetail (d : String)
  | routeOnly (r : String) (verified : Option Bool)
  | facilitiesList
  | eventsList
  | lostFoundList
  | waitTimesList
  | fallback
  deriving Repr, DecidableEq

/-- Embedding of the priority dispatch of `_synthesize_response` (phase 2,
after aggregation): the first non-empty category in source order decides
the response shape. -/
def responseKind (a : Aggregated) : ResponseKind :=
  if a.shops ≠ [] ∨ a.recommendations ≠ [] then .itinerary
  else
    match a.shop_details with
    | d :: _ => .shopDetail d
    | [] =>
      match a.route with
      | some r => .routeOnly r a.route_verified
      | none =>
        if a.facilities ≠ [] then .facilitiesList
        else if a.events ≠ [] then .eventsList
        else if a.lost_found ≠ [] then .lostFoundList
        else if a.wait_times ≠ [] then .waitTimesList
        else .fallback

/-! Helpers used in theorem statements and concrete instantiations. -/

/-- The optimized-order shop names of an accessible-route result
(empty on the error branch). -/
def accNames (r : Except String AccRoute) : List String :=
  match r with
  | .ok a => a.optimized_order.map (·.shop_name)
  | .error _ => []

/-- A small representative catalog standing in for `mall_data.json`. -/
def demoCatalog : List CShop :=
  [⟨1, "Fashion Forward", "Fashion", 1⟩,
   ⟨2, "Gourmet Court", "Food", 3⟩,
   ⟨3, "Jewel Box", "Jewelry", 1⟩]

/-- A two-shop catalog whose shops share a floor, to probe tie-breaking. -/
def tieCatalog : List CShop :=
  [⟨1, "A", "Fashion", 1⟩, ⟨2, "B", "Fashion", 1⟩]

/-- First decoded record of a duplicated shop id. -/
def recAlpha : ShopRec := ⟨some 1, "Alpha", "Fashion"⟩

/-- Second decoded record with the same id but different attributes. -/
def recBeta : ShopRec := ⟨some 1, "Beta", "Food"⟩

/-- A successful shop-bearing outcome carrying both duplicate records. -/
def demoOuts : List SearchOutcome := [⟨true, some [recAlpha, recBeta]⟩]

/-- A two-stop list with valid distinct ids for allocator instantiations. -/
def demoStops : List ShopRec :=
  [⟨some 1, "A", "Fashion"⟩, ⟨some 2, "B", "Food"⟩]

/-- A dataset in which every category is non-empty at once. -/
def aggAll : Aggregated :=
  { shops := [recAlpha]
    shop_details := ["detail"]
    route := some "route"
    route_verified := some true
    recommendations := [recBeta]
    facilities := ["restroom"]
    events := ["festival"]
    wait_times := ["wait"]
    lost_found := ["wallet"] }

/-- A demo backend that fails on one operation name and succeeds elsewhere. -/
def demoBackend (c : AToolCall) : Except String String :=
  if c.tool_name = "boom" then .error "backend down" else .ok "payload"

/-- A demo gather runtime: the middle operation dies inside the runtime. -/
def demoRuntime (c : AToolCall) : Except String AToolResult :=
  if c.tool_name = "cancelled" then .error "task cancelled"
  else .ok (execute_tool demoBackend c 7)

/-- The route `calculate_route` produces on `demoCatalog` for ids `[2, 1]`. -/
def demoRoute : Route :=
  { total_shops := 2
    floors_visited := [1, 3]
    floor_changes := 1
    optimized_order :=
      [⟨1, "Fashion Forward", 1, "Fashion"⟩, ⟨2, "Gourmet Court", 3, "Food"⟩]
    estimated_time_minutes := 36 }

/-! General lemmas about the embedded list operations. -/

theorem find?_isSome_eq_any {α : Type} (p : α → Bool) (l : List α) :
    (l.find? p).isSome = l.any p := by
  induction l with
  | nil => rfl
  | cons a l ih =>
    cases h : p a <;> simp [List.find?_cons, h, ih]

theorem filterMap_filter_isSome {α β : Type} (f : α → Option β) (l : List α) :
    (l.filter (fun a => (f a).isSome)).filterMap f = l.filterMap f := by
  induction l with
  | nil => rfl
  | cons a l ih =>
    cases h : f a <;> simp [List.filter_cons, List.filterMap_cons, h, ih]

theorem resolveRoute_filter_resolvable (catalog : List CShop) (ids : List Nat) :
    resolveRoute catalog
        (ids.filter (fun i => catalog.any (fun s => s.id == i))) =
      resolveRoute catalog ids := by
  unfold resolveRoute
  induction ids with
  | nil => rfl
  | cons i ids ih =>
    have hx := find?_isSome_eq_any (fun s => s.id == i) catalog
    cases hf : catalog.find? (fun s => s.id == i) with
    | none =>
      have ha : catalog.any (fun s => s.id == i) = false := by
        rw [← hx, hf]
        rfl
      simp [List.filter_cons, ha, List.filterMap_cons, hf, ih]
    | some x =>
      have ha : catalog.any (fun s => s.id == i) = true := by
        rw [← hx, hf]
        rfl
      simp [List.filter_cons, ha, List.filterMap_cons, hf, ih]

theorem resolveByMembership_filter_resolvable (catalog : List CShop)
    (ids : List Nat) :
    resolveByMembership catalog
        (ids.filter (fun i => catalog.any (fun s => s.id == i))) =
      resolveByMembership catalog ids := by
  unfold resolveByMembership
  apply List.filter_congr
  intro s hs
  by_cases h : s.id ∈ ids
  · have h2 : s.id ∈ ids.filter (fun i => catalog.any (fun t => t.id == i)) := by
      refine List.mem_filter.2 ⟨h, ?_⟩
      exact List.any_eq_true.2 ⟨s, hs, by simp⟩
    simp [List.elem_eq_mem, h, h2]
  · have h2 : s.id ∉ ids.filter (fun i => catalog.any (fun t => t.id == i)) :=
      fun hc => h (List.mem_filter.1 hc).1
    simp [List.elem_eq_mem, h, h2]

theorem insertFloor_perm (s : CShop) (l : List CShop) :
    List.Perm (insertFloor s l) (s :: l) := by
  induction l with
  | nil => exact List.Perm.refl _
  | cons t ts ih =>
    unfold insertFloor
    split
    · exact ((ih.cons t).trans (List.Perm.swap s t ts))
    · exact List.Perm.refl _

theorem sortByFloor_perm (l : List CShop) : List.Perm (sortByFloor l) l := by
  induction l with
  | nil => exact List.Perm.refl _
  | cons s rest ih =>
    exact (insertFloor_perm s (sortByFloor rest)).trans (ih.cons s)

theorem length_sortByFloor (l : List CShop) :
    (sortByFloor l).length = l.length :=
  (sortByFloor_perm l).length_eq

theorem distinctFloors_sortByFloor (l : List CShop) :
    distinctFloors (sortByFloor l) = distinctFloors l := by
  unfold distinctFloors
  exact (((sortByFloor_perm l).map (·.floor)).dedup).length_eq

theorem distinctFloors_eq_card (l : List CShop) :
    distinctFloors l = ((l.map (·.floor)).toFinset).card := by
  unfold distinctFloors
  rw [List.card_toFinset]

/-- C4: for every non-empty resolvable id list, the standard route's
estimate is 15 per stop plus 3 per distinct floor, and the accessible
route's estimate is 20 per stop plus 5 per distinct floor with a
rest-point count equal to the distinct-floor count. -/
theorem route_estimate_formulas :
    (∀ catalog ids r, calculate_route catalog ids = .ok r →
        r.total_shops = (resolveRoute catalog ids).length ∧
        r.estimated_time_minutes =
          15 * (resolveRoute catalog ids).length +
            3 * ((resolveRoute catalog ids).map (·.floor)).toFinset.card) ∧
    (∀ catalog ids a, calculate_accessible_route catalog ids = .ok a →
        a.total_shops = (resolveByMembership catalog ids).length ∧
        a.estimated_time_minutes =
          20 * (resolveByMembership catalog ids).length +
            5 * ((resolveByMembership catalog ids).map (·.floor)).toFinset.card ∧
        a.accessibility_features.rest_points =
          ((resolveByMembership catalog ids).map (·.floor)).toFinset.card) := by
  constructor
  · intro catalog ids r h
    unfold calculate_route at h
    by_cases he : (resolveRoute catalog ids).isEmpty
    · simp [he] at h
    · simp only [he, Bool.false_eq_true, if_false, Except.ok.injEq] at h
      subst h
      refine ⟨length_sortByFloor _, ?_⟩
      simp [length_sortByFloor, distinctFloors_sortByFloor,
        ← distinctFloors_eq_card, Nat.mul_comm]
  · intro catalog ids a h
    unfold calculate_accessible_route at h
    by_cases he : (resolveByMembership catalog ids).isEmpty
    · simp [he] at h
    · simp only [he, Bool.false_eq_true, if_false, Except.ok.injEq] at h
      subst h
      refine ⟨length_sortByFloor _, ?_, ?_⟩ <;>
        simp [length_sortByFloor, distinctFloors_sortByFloor,
          ← distinctFloors_eq_card, Nat.mul_comm]

/-- C4 witness: the demo catalog with ids `[2, 1]` instantiates both
formula conclusions for the standard variant. -/
theorem route_estimate_formulas_witness :
    calculate_route demoCatalog [2, 1] = .ok demoRoute ∧
    demoRoute.total_shops = (resolveRoute demoCatalog [2, 1]).length ∧
    demoRoute.estimated_time_minutes =
      15 * (resolveRoute demoCatalog [2, 1]).length +
        3 * ((resolveRoute demoCatalog [2, 1]).map (·.floor)).toFinset.card :=
  ⟨by decide, route_estimate_formulas.1 demoCatalog [2, 1] demoRoute (by decide)⟩

/-- C7: an empty or entirely unresolvable stop-id list makes both
route-planning variants return the explicit "No valid shops found"
error rather than a route value. -/
theorem no_valid_stops_error (catalog : List CShop) (ids : List Nat) :
    (resolveRoute catalog ids = [] →
        calculate_route catalog ids = .error "No valid shops found") ∧
    (resolveByMembership catalog ids = [] →
        calculate_accessible_route catalog ids = .error "No valid shops found") ∧
    (ids = [] →
        resolveRoute catalog ids = [] ∧ resolveByMembership catalog ids = []) := by
  refine ⟨?_, ?_, ?_⟩
  · intro h
    unfold calculate_route
    simp [h]
  · intro h
    unfold calculate_accessible_route
    simp [h]
  · rintro rfl
    constructor <;> simp [resolveRoute, resolveByMembership]

/-- C7 witness: the empty id list on the demo catalog hits the error
branch of `calculate_route`. -/
theorem no_valid_stops_error_witness :
    resolveRoute demoCatalog [] = [] ∧
    calculate_route demoCatalog [] = .error "No valid shops found" :=
  ⟨by decide, (no_valid_stops_error demoCatalog []).1 (by decide)⟩

/-- C10: when at least one id resolves, route planning and verification
silently drop the unresolvable ids — the result is identical to the one
computed for the list cleaned of unresolvable ids, and no error field or
marker reports the dropped ids. -/
theorem unresolvable_ids_dropped (catalog : List CShop) (ids : List Nat)
    (cs : Constraints)
    (h : ∃ i ∈ ids, ∃ s ∈ catalog, s.id = i) :
    calculate_route catalog ids =
      calculate_route catalog
        (ids.filter (fun i => catalog.any (fun s => s.id == i))) ∧
    (∃ r, calculate_route catalog ids = .ok r) ∧
    verify_route catalog ids cs =
      verify_route catalog
        (ids.filter (fun i => catalog.any (fun s => s.id == i))) cs ∧
    (verify_route catalog ids cs).error = none := by
  obtain ⟨i, hi, s, hs, hsi⟩ := h
  have hsome : (catalog.find? (fun t => t.id == i)).isSome := by
    rw [find?_isSome_eq_any]
    exact List.any_eq_true.2 ⟨s, hs, by simp [hsi]⟩
  obtain ⟨x, hx⟩ := Option.isSome_iff_exists.1 hsome
  have hmem : x ∈ resolveRoute catalog ids :=
    List.mem_filterMap.2 ⟨i, hi, hx⟩
  have hne : (resolveRoute catalog ids).isEmpty = false := by
    cases hr : resolveRoute catalog ids with
    | nil => rw [hr] at hmem; cases hmem
    | cons y ys => rfl
  have hmem2 : s ∈ resolveByMembership catalog ids := by
    refine List.mem_filter.2 ⟨hs, ?_⟩
    simp [List.elem_eq_mem, hsi, hi]
  have hne2 : (resolveByMembership catalog ids).isEmpty = false := by
    cases hr : resolveByMembership catalog ids with
    | nil => rw [hr] at hmem2; cases hmem2
    | cons y ys => rfl
  refine ⟨?_, ?_, ?_, ?_⟩
  · simp only [calculate_route, resolveRoute_filter_resolvable]
  · cases hcr : calculate_route catalog ids with
    | ok r => exact ⟨r, rfl⟩
    | error e => simp [calculate_route, hne] at hcr
  · simp only [verify_route, resolveByMembership_filter_resolvable]
  · simp only [verify_route, hne2, Bool.false_eq_true, if_false]

/-- C10 witness: id 99 resolves to nothing on the demo catalog but id 1
does, and verification reports no error for the mixed list. -/
theorem unresolvable_ids_dropped_witness :
    (∃ i ∈ ([1, 99] : List Nat), ∃ s ∈ demoCatalog, s.id = i) ∧
    (verify_route demoCatalog [1, 99] {}).error = none := by
  have h : ∃ i ∈ ([1, 99] : List Nat), ∃ s ∈ demoCatalog, s.id = i :=
    ⟨1, by decide, ⟨1, "Fashion Forward", "Fashion", 1⟩, by decide, rfl⟩
  exact ⟨h, (unresolvable_ids_dropped demoCatalog [1, 99] {} h).2.2.2⟩

/-- C6: the response shape follows the strict priority order over the
non-empty dataset fields — shops/recommendations, then the first
shop-detail record, then the route (with its verification flag), then
facilities, events, lost-and-found, wait times, and finally the generic
fallback; an earlier non-empty category always wins. -/
theorem response_shape_priority (a : Aggregated) :
    (a.shops ≠ [] ∨ a.recommendations ≠ [] → responseKind a = .itinerary) ∧
    (a.shops = [] → a.recommendations = [] → ∀ d rest,
        a.shop_details = d :: rest → responseKind a = .shopDetail d) ∧
    (a.shops = [] → a.recommendations = [] → a.shop_details = [] → ∀ r,
        a.route = some r → responseKind a = .routeOnly r a.route_verified) ∧
    (a.shops = [] → a.recommendations = [] → a.shop_details = [] →
        a.route = none → a.facilities ≠ [] →
        responseKind a = .facilitiesList) ∧
    (a.shops = [] → a.recommendations = [] → a.shop_details = [] →
        a.route = none → a.facilities = [] → a.events ≠ [] →
        responseKind a = .eventsList) ∧
    (a.shops = [] → a.recommendations = [] → a.shop_details = [] →
        a.route = none → a.facilities = [] → a.events = [] →
        a.lost_found ≠ [] → responseKind a = .lostFoundList) ∧
    (a.shops = [] → a.recommendations = [] → a.shop_details = [] →
        a.route = none → a.facilities = [] → a.events = [] →
        a.lost_found = [] → a.wait_times ≠ [] →
        responseKind a = .waitTimesList) ∧
    (a.shops = [] → a.recommendations = [] → a.shop_details = [] →
        a.route = none → a.facilities = [] → a.events = [] →
        a.lost_found = [] → a.wait_times = [] →
        responseKind a = .fallback) := by
  refine ⟨?_, ?_, ?_, ?_, ?_, ?_, ?_, ?_⟩ <;>
    intros <;> simp_all [responseKind]

/-- C6 witness: on a dataset where every category is simultaneously
non-empty, the itinerary shape wins. -/
theorem response_shape_priority_witness :
    responseKind aggAll = .itinerary :=
  (response_shape_priority aggAll).1 (Or.inl (by decide))

/-- C5: a single tool invocation is a total function packaging either
outcome of the backend call — a raised exception becomes a failed result
carrying the message and elapsed time — and batch execution returns one
result per call in input positional order, converting per-call runtime
exceptions into failed results instead of aborting. -/
theorem invoker_total_and_order_preserving :
    (∀ backend c t d, backend c = .ok d →
        execute_tool backend c t =
          ⟨c.tool_name, true, some d, none, t⟩) ∧
    (∀ backend c t e, backend c = .error e →
        execute_tool backend c t =
          ⟨c.tool_name, false, none, some e, t⟩) ∧
    (∀ runtime calls,
        (execute_parallel runtime calls).length = calls.length) ∧
    (∀ runtime calls (i : Nat) c r, calls[i]? = some c →
        runtime c = .ok r →
        (execute_parallel runtime calls)[i]? = some r) ∧
    (∀ runtime calls (i : Nat) c e, calls[i]? = some c →
        runtime c = .error e →
        (execute_parallel runtime calls)[i]? =
          some ⟨c.tool_name, false, none, some e, 0⟩) := by
  refine ⟨?_, ?_, ?_, ?_, ?_⟩
  · intro backend c t d h
    simp [execute_tool, h]
  · intro backend c t e h
    simp [execute_tool, h]
  · intro runtime calls
    simp [execute_parallel]
  · intro runtime calls i c r hc hr
    simp [execute_parallel, List.getElem?_map, hc, hr]
  · intro runtime calls i c e hc hr
    simp [execute_parallel, List.getElem?_map, hc, hr]

/-- C5 witness: in a three-call batch whose middle call dies inside the
runtime, the outputs stay positionally aligned — the failure is converted
in place and the flanking successes are untouched. -/
theorem invoker_total_and_order_preserving_witness :
    (execute_parallel demoRuntime
        [⟨"search_shops", "a"⟩, ⟨"cancelled", "b"⟩, ⟨"boom", "c"⟩])[1]? =
      some ⟨"cancelled", false, none, some "task cancelled", 0⟩ :=
  invoker_total_and_order_preserving.2.2.2.2 demoRuntime
    [⟨"search_shops", "a"⟩, ⟨"cancelled", "b"⟩, ⟨"boom", "c"⟩] 1
    ⟨"cancelled", "b"⟩ "task cancelled" (by decide) (by decide)

/-! Sortedness and stability of the floor sort. -/

theorem pairwise_insertFloor (s : CShop) (l : List CShop)
    (h : l.Pairwise (fun a b => a.floor ≤ b.floor)) :
    (insertFloor s l).Pairwise (fun a b => a.floor ≤ b.floor) := by
  induction l with
  | nil => simp [insertFloor]
  | cons t ts ih =>
    rcases List.pairwise_cons.1 h with ⟨ht, hts⟩
    unfold insertFloor
    split
    case isTrue hlt =>
      refine List.pairwise_cons.2 ⟨?_, ih hts⟩
      intro x hx
      rcases List.mem_cons.1 ((insertFloor_perm s ts).mem_iff.1 hx) with rfl | hx
      · exact Nat.le_of_lt hlt
      · exact ht x hx
    case isFalse hge =>
      refine List.pairwise_cons.2 ⟨?_, h⟩
      intro x hx
      rcases List.mem_cons.1 hx with rfl | hx
      · exact Nat.le_of_not_lt hge
      · exact Nat.le_trans (Nat.le_of_not_lt hge) (ht x hx)

theorem sortByFloor_pairwise (l : List CShop) :
    (sortByFloor l).Pairwise (fun a b => a.floor ≤ b.floor) := by
  induction l with
  | nil => simp [sortByFloor]
  | cons s rest ih => exact pairwise_insertFloor s (sortByFloor rest) ih

theorem filter_insertFloor (s : CShop) (l : List CShop) (f : Nat) :
    (insertFloor s l).filter (fun x => x.floor == f) =
      if s.floor == f then s :: l.filter (fun x => x.floor == f)
      else l.filter (fun x => x.floor == f) := by
  induction l with
  | nil => simp [insertFloor, List.filter_cons]
  | cons t ts ih =>
    unfold insertFloor
    split
    case isTrue hlt =>
      by_cases hsf : s.floor = f
      · have htf : (t.floor == f) = false := by
          have : t.floor ≠ f := by omega
          simp [this]
        simp [List.filter_cons, htf, ih, hsf]
      · simp [List.filter_cons, ih, hsf]
    case isFalse hge =>
      by_cases hsf : s.floor = f <;> simp [List.filter_cons, hsf]

theorem sortByFloor_filter (l : List CShop) (f : Nat) :
    (sortByFloor l).filter (fun x => x.floor == f) =
      l.filter (fun x => x.floor == f) := by
  induction l with
  | nil => rfl
  | cons s rest ih =>
    by_cases hsf : s.floor = f <;>
      simp [sortByFloor, filter_insertFloor, List.filter_cons, hsf, ih]

theorem mkRouteStopsFrom_map_floor (n : Nat) (l : List CShop) :
    (mkRouteStopsFrom n l).map (·.floor) = l.map (·.floor) := by
  induction l generalizing n with
  | nil => rfl
  | cons s rest ih => simp [mkRouteStopsFrom, ih]

theorem mkRouteStopsFrom_filter_names (n : Nat) (l : List CShop) (f : Nat) :
    ((mkRouteStopsFrom n l).filter (fun st => st.floor == f)).map
        (·.shop_name) =
      (l.filter (fun s => s.floor == f)).map (·.name) := by
  induction l generalizing n with
  | nil => rfl
  | cons s rest ih =>
    by_cases hsf : s.floor = f <;>
      simp [mkRouteStopsFrom, List.filter_cons, hsf, ih]

theorem mkAccRouteStopsFrom_map_floor (n : Nat) (l : List CShop) :
    (mkAccRouteStopsFrom n l).map (·.floor) = l.map (·.floor) := by
  induction l generalizing n with
  | nil => rfl
  | cons s rest ih => simp [mkAccRouteStopsFrom, ih]

theorem mkAccRouteStopsFrom_filter_names (n : Nat) (l : List CShop)
    (f : Nat) :
    ((mkAccRouteStopsFrom n l).filter (fun st => st.floor == f)).map
        (·.shop_name) =
      (l.filter (fun s => s.floor == f)).map (·.name) := by
  induction l generalizing n with
  | nil => rfl
  | cons s rest ih =>
    by_cases hsf : s.floor = f <;>
      simp [mkAccRouteStopsFrom, List.filter_cons, hsf, ih]

/-- C8 (amended): both planning variants output a floor sequence that is
non-decreasing, and stops sharing a floor appear in resolution order —
which is the input-id order for `calculate_route` but the catalog order
for `calculate_accessible_route`. -/
theorem route_floor_sorted_stable :
    (∀ catalog ids r, calculate_route catalog ids = .ok r →
        (r.optimized_order.map (·.floor)).Chain' (· ≤ ·) ∧
        ∀ f, ((r.optimized_order.filter (fun st => st.floor == f)).map
            (·.shop_name)) =
          (((resolveRoute catalog ids).filter
              (fun s => s.floor == f)).map (·.name))) ∧
    (∀ catalog ids a, calculate_accessible_route catalog ids = .ok a →
        (a.optimized_order.map (·.floor)).Chain' (· ≤ ·) ∧
        ∀ f, ((a.optimized_order.filter (fun st => st.floor == f)).map
            (·.shop_name)) =
          (((resolveByMembership catalog ids).filter
              (fun s => s.floor == f)).map (·.name))) := by
  constructor
  · intro catalog ids r h
    unfold calculate_route at h
    by_cases he : (resolveRoute catalog ids).isEmpty
    · simp [he] at h
    · simp only [he, Bool.false_eq_true, if_false, Except.ok.injEq] at h
      subst h
      constructor
      · refine List.Pairwise.chain' ?_
        rw [mkRouteStops, mkRouteStopsFrom_map_floor]
        exact (sortByFloor_pairwise _).map (fun s : CShop => s.floor)
          (fun a b hab => hab)
      · intro f
        rw [mkRouteStops, mkRouteStopsFrom_filter_names, sortByFloor_filter]
  · intro catalog ids a h
    unfold calculate_accessible_route at h
    by_cases he : (resolveByMembership catalog ids).isEmpty
    · simp [he] at h
    · simp only [he, Bool.false_eq_true, if_false, Except.ok.injEq] at h
      subst h
      constructor
      · refine List.Pairwise.chain' ?_
        rw [mkAccRouteStops, mkAccRouteStopsFrom_map_floor]
        exact (sortByFloor_pairwise _).map (fun s : CShop => s.floor)
          (fun a b hab => hab)
      · intro f
        rw [mkAccRouteStops, mkAccRouteStopsFrom_filter_names,
          sortByFloor_filter]

/-- C8 counterexample: on a catalog with two same-floor shops, requesting
ids in the order `[2, 1]` makes the accessible route list the shops in
catalog order `["A", "B"]` — not in the input order `["B", "A"]` that
the input-order tie-break of the claim would demand. -/
theorem accessible_tiebreak_is_catalog_order :
    accNames (calculate_accessible_route tieCatalog [2, 1]) = ["A", "B"] ∧
    (resolveRoute tieCatalog [2, 1]).map (·.name) = ["B", "A"] ∧
    accNames (calculate_accessible_route tieCatalog [2, 1]) ≠
      (resolveRoute tieCatalog [2, 1]).map (·.name) := by
  refine ⟨by decide, by decide, by decide⟩

/-- C8 witness: the demo route's floor sequence is non-decreasing. -/
theorem route_floor_sorted_stable_witness :
    calculate_route demoCatalog [2, 1] = .ok demoRoute ∧
    (demoRoute.optimized_order.map (·.floor)).Chain' (· ≤ ·) :=
  ⟨by decide,
    (route_floor_sorted_stable.1 demoCatalog [2, 1] demoRoute (by decide)).1⟩

/-! Python dict semantics: keys, overwrite and lookup under `dinsert`. -/

theorem find?_cons_eq {α : Type} (p : α → Bool) (a : α) (l : List α) :
    (a :: l).find? p = if p a then some a else l.find? p := by
  by_cases h : p a
  · rw [List.find?_cons_of_pos _ h, if_pos h]
  · rw [List.find?_cons_of_neg _ h, if_neg h]

theorem keys_overwrite {α : Type} (d : List (Nat × α)) (k : Nat) (v : α) :
    (d.map (fun p => if p.1 == k then (k, v) else p)).map (fun p => p.1) =
      d.map (fun p => p.1) := by
  rw [List.map_map]
  apply List.map_congr_left
  intro p _
  by_cases hp : p.1 = k <;> simp [hp]

theorem keys_dinsert {α : Type} (d : List (Nat × α)) (k : Nat) (v : α) :
    (dinsert d k v).map (fun p => p.1) =
      if d.any (fun p => p.1 == k) then d.map (fun p => p.1)
      else d.map (fun p => p.1) ++ [k] := by
  by_cases h : d.any (fun p => p.1 == k)
  · unfold dinsert
    rw [if_pos h, if_pos h, keys_overwrite]
  · unfold dinsert
    rw [if_neg h, if_neg h]
    simp

theorem nodup_keys_dinsert {α : Type} (d : List (Nat × α)) (k : Nat) (v : α)
    (h : (d.map (fun p => p.1)).Nodup) :
    ((dinsert d k v).map (fun p => p.1)).Nodup := by
  rw [keys_dinsert]
  by_cases ha : d.any (fun p => p.1 == k)
  · simp [ha, h]
  · have hk : k ∉ d.map (fun p => p.1) := by
      intro hc
      rcases List.mem_map.1 hc with ⟨p, hp, hpk⟩
      exact ha (List.any_eq_true.2 ⟨p, hp, by simp [hpk]⟩)
    simp [ha, List.nodup_append, h, hk]

theorem dlookup_overwrite_self {α : Type} (d : List (Nat × α)) (k : Nat)
    (v : α) (ha : d.any (fun p => p.1 == k) = true) :
    dlookup (d.map (fun p => if p.1 == k then (k, v) else p)) k = some v := by
  induction d with
  | nil => simp at ha
  | cons p ps ih =>
    by_cases hp : p.1 = k
    · have himg : (if p.1 == k then (k, v) else p) = (k, v) := by simp [hp]
      unfold dlookup
      rw [List.map_cons, himg, find?_cons_eq, if_pos (by simp)]
      rfl
    · have ha2 : ps.any (fun q => q.1 == k) = true := by
        rcases List.any_eq_true.1 ha with ⟨q, hq, hqk⟩
        rcases List.mem_cons.1 hq with rfl | hq
        · exact absurd (by simpa using hqk) hp
        · exact List.any_eq_true.2 ⟨q, hq, hqk⟩
      have himg : (if p.1 == k then (k, v) else p) = p := by simp [hp]
      unfold dlookup
      rw [List.map_cons, himg, find?_cons_eq, if_neg (by simp [hp])]
      exact ih ha2

theorem dlookup_overwrite_ne {α : Type} (d : List (Nat × α)) (k : Nat)
    (v : α) (k2 : Nat) (hne : k2 ≠ k) :
    dlookup (d.map (fun p => if p.1 == k then (k, v) else p)) k2 =
      dlookup d k2 := by
  induction d with
  | nil => rfl
  | cons p ps ih =>
    by_cases hp : p.1 = k
    · have himg : (if p.1 == k then (k, v) else p) = (k, v) := by simp [hp]
      have h1 : ¬((k, v).1 == k2) = true := by
        simp
        exact fun h => hne h.symm
      have h2 : ¬(p.1 == k2) = true := by
        rw [hp]
        simp
        exact fun h => hne h.symm
      unfold dlookup
      rw [List.map_cons, himg, find?_cons_eq, if_neg h1,
        find?_cons_eq, if_neg h2]
      exact ih
    · have himg : (if p.1 == k then (k, v) else p) = p := by simp [hp]
      by_cases hpk : p.1 = k2
      · unfold dlookup
        rw [List.map_cons, himg, find?_cons_eq, if_pos (by simp [hpk]),
          find?_cons_eq, if_pos (by simp [hpk])]
      · unfold dlookup
        rw [List.map_cons, himg, find?_cons_eq, if_neg (by simp [hpk]),
          find?_cons_eq, if_neg (by simp [hpk])]
        exact ih

theorem dlookup_append_single {α : Type} (d : List (Nat × α)) (k : Nat)
    (v : α) (k2 : Nat) :
    dlookup (d ++ [(k, v)]) k2 =
      (dlookup d k2).or (if k2 = k then some v else none) := by
  unfold dlookup
  rw [List.find?_append]
  cases hf : d.find? (fun p => p.1 == k2) with
  | some p => simp
  | none =>
    rw [find?_cons_eq]
    by_cases hk : k2 = k
    · rw [if_pos (by simp [hk])]
      simp [hk]
    · rw [if_neg (by simp; exact fun h => hk h.symm)]
      simp [hk]

theorem dlookup_dinsert_self {α : Type} (d : List (Nat × α)) (k : Nat)
    (v : α) : dlookup (dinsert d k v) k = some v := by
  by_cases ha : d.any (fun p => p.1 == k)
  · have h1 : dinsert d k v =
        d.map (fun p => if p.1 == k then (k, v) else p) := by
      simp [dinsert, ha]
    rw [h1]
    exact dlookup_overwrite_self d k v ha
  · have h1 : dinsert d k v = d ++ [(k, v)] := by
      simp [dinsert, ha]
    have hnone : dlookup d k = none := by
      unfold dlookup
      cases hf : d.find? (fun p => p.1 == k) with
      | none => rfl
      | some p =>
        exact absurd
          (List.any_eq_true.2
            ⟨p, List.mem_of_find?_eq_some hf, List.find?_some hf⟩) ha
    rw [h1, dlookup_append_single, hnone]
    simp

theorem dlookup_dinsert_ne {α : Type} (d : List (Nat × α)) (k : Nat) (v : α)
    (k2 : Nat) (hne : k2 ≠ k) :
    dlookup (dinsert d k v) k2 = dlookup d k2 := by
  by_cases ha : d.any (fun p => p.1 == k)
  · have h1 : dinsert d k v =
        d.map (fun p => if p.1 == k then (k, v) else p) := by
      simp [dinsert, ha]
    rw [h1]
    exact dlookup_overwrite_ne d k v k2 hne
  · have h1 : dinsert d k v = d ++ [(k, v)] := by
      simp [dinsert, ha]
    rw [h1, dlookup_append_single]
    simp [hne]

theorem dlookup_of_mem_nodup {α : Type} (d : List (Nat × α)) (k : Nat)
    (v : α) (hnd : (d.map (fun p => p.1)).Nodup) (hm : (k, v) ∈ d) :
    dlookup d k = some v := by
  induction d with
  | nil => cases hm
  | cons p ps ih =>
    rcases List.mem_cons.1 hm with rfl | hm
    · simp [dlookup, List.find?_cons]
    · have hk : k ∈ ps.map (fun p => p.1) :=
        List.mem_map.2 ⟨(k, v), hm, rfl⟩
      have hp1 : p.1 ∉ ps.map (fun p => p.1) :=
        (List.nodup_cons.1 hnd).1
      have hpk : (p.1 == k) = false := by
        simp
        intro hc
        exact hp1 (hc ▸ hk)
      have ih2 := ih (List.nodup_cons.1 hnd).2 hm
      simp only [dlookup, List.find?_cons] at ih2 ⊢
      simpa [hpk] using ih2

theorem dictInsertShop_wf (d : List (Nat × ShopRec)) (s : ShopRec)
    (hw : ∀ p ∈ d, p.2.id = some p.1) :
    ∀ p ∈ dictInsertShop d s, p.2.id = some p.1 := by
  cases hs : s.id with
  | none => simpa [dictInsertShop, hs] using hw
  | some k =>
    intro p hp
    simp only [dictInsertShop, hs] at hp
    by_cases ha : d.any (fun q => q.1 == k)
    · simp only [dinsert, ha, if_true] at hp
      rcases List.mem_map.1 hp with ⟨q, hq, rfl⟩
      by_cases hqk : q.1 = k <;> simp [hqk, hs, hw q hq]
    · simp only [dinsert, ha, Bool.false_eq_true, if_false] at hp
      rcases List.mem_append.1 hp with hp | hp
      · exact hw p hp
      · rcases List.mem_singleton.1 hp with rfl
        simpa using hs

theorem foldl_dictInsertShop_spec (recs : List ShopRec)
    (d : List (Nat × ShopRec)) (hnd : (d.map (fun p => p.1)).Nodup)
    (hw : ∀ p ∈ d, p.2.id = some p.1) :
    (((recs.foldl dictInsertShop d).map (fun p => p.1)).Nodup) ∧
    (∀ p ∈ recs.foldl dictInsertShop d, p.2.id = some p.1) ∧
    (∀ k, dlookup (recs.foldl dictInsertShop d) k =
        (recs.reverse.find? (fun s => s.id == some k)).or (dlookup d k)) := by
  induction recs generalizing d with
  | nil => exact ⟨hnd, hw, fun k => by simp⟩
  | cons r rest ih =>
    have hnd2 : ((dictInsertShop d r).map (fun p => p.1)).Nodup := by
      cases hr : r.id with
      | none => simpa [dictInsertShop, hr] using hnd
      | some j =>
        simpa [dictInsertShop, hr] using nodup_keys_dinsert d j r hnd
    have hw2 := dictInsertShop_wf d r hw
    obtain ⟨h1, h2, h3⟩ := ih (dictInsertShop d r) hnd2 hw2
    refine ⟨h1, h2, ?_⟩
    intro k
    rw [List.foldl_cons, h3 k, List.reverse_cons, List.find?_append]
    cases hfr : rest.reverse.find? (fun s => s.id == some k) with
    | some s => simp
    | none =>
      cases hr : r.id with
      | none => simp [dictInsertShop, hr, List.find?_cons]
      | some j =>
        by_cases hj : j = k
        · subst hj
          simp [dictInsertShop, hr, dlookup_dinsert_self, List.find?_cons]
        · have hbeq : ((some j : Option Nat) == some k) = false := by
            simp [hj]
          simp [dictInsertShop, hr, dlookup_dinsert_ne d j r k
            (fun h => hj h.symm), List.find?_cons, hbeq]

/-- C1 (amended): aggregating shop-bearing outcomes yields exactly one
entry per id — every aggregated entry carries an id, ids are pairwise
distinct, and an id appears in the output iff some collected record
carries it — but when several decoded records share an id, the retained
entry is the LAST occurrence (in outcome/decode order), not the first. -/
theorem aggregate_shops_one_entry_last_wins (outs : List SearchOutcome) :
    ((aggregateShops outs).map (fun s => s.id)).Nodup ∧
    (∀ s ∈ aggregateShops outs, s.id ≠ none) ∧
    (∀ k : Nat, (∃ s ∈ aggregateShops outs, s.id = some k) ↔
        (∃ s ∈ collectShops outs, s.id = some k)) ∧
    (∀ s ∈ aggregateShops outs,
        (collectShops outs).reverse.find? (fun t => t.id == s.id) =
          some s) := by
  by_cases hemp : (collectShops outs).isEmpty
  · have h0 : collectShops outs = [] := by
      cases h : collectShops outs with
      | nil => rfl
      | cons a l => rw [h] at hemp; cases hemp
    have h1 : aggregateShops outs = [] := by
      simp [aggregateShops, dedupShopsById, h0]
    simp [h0, h1]
  · have hagg : aggregateShops outs =
        ((collectShops outs).foldl dictInsertShop []).map (fun p => p.2) := by
      simp [aggregateShops, dedupShopsById, hemp]
    obtain ⟨hnd, hw, hlk⟩ :=
      foldl_dictInsertShop_spec (collectShops outs) [] (by simp) (by simp)
    have hlk2 : ∀ k,
        dlookup ((collectShops outs).foldl dictInsertShop []) k =
          (collectShops outs).reverse.find? (fun s => s.id == some k) := by
      intro k
      rw [hlk k]
      simp [dlookup]
    refine ⟨?_, ?_, ?_, ?_⟩
    · rw [hagg]
      have hmaps : (((collectShops outs).foldl dictInsertShop []).map
            (fun p => p.2)).map (fun s => s.id) =
          (((collectShops outs).foldl dictInsertShop []).map
            (fun p => p.1)).map some := by
        rw [List.map_map, List.map_map]
        exact List.map_congr_left (fun p hp => hw p hp)
      rw [hmaps]
      exact hnd.map (fun a b h => Option.some.inj h)
    · rw [hagg]
      intro s hs
      rcases List.mem_map.1 hs with ⟨p, hp, rfl⟩
      rw [hw p hp]
      exact Option.noConfusion
    · intro k
      constructor
      · rintro ⟨s, hs, hsk⟩
        rw [hagg] at hs
        rcases List.mem_map.1 hs with ⟨p, hp, rfl⟩
        have := hlk2 p.1
        rw [dlookup_of_mem_nodup _ p.1 p.2 hnd (by cases p; exact hp)]
          at this
        have hmem := List.mem_of_find?_eq_some this.symm
        exact ⟨p.2, List.mem_reverse.1 hmem, hsk⟩
      · rintro ⟨s, hs, hsk⟩
        have hsome : ((collectShops outs).reverse.find?
            (fun t => t.id == some k)).isSome := by
          rw [find?_isSome_eq_any]
          exact List.any_eq_true.2
            ⟨s, List.mem_reverse.2 hs, by simp [hsk]⟩
        obtain ⟨t, ht⟩ := Option.isSome_iff_exists.1 hsome
        have htid : t.id = some k := by
          simpa using List.find?_some ht
        have hlt := (hlk2 k).trans ht
        unfold dlookup at hlt
        cases hf : ((collectShops outs).foldl dictInsertShop []).find?
            (fun p => p.1 == k) with
        | none => rw [hf] at hlt; cases hlt
        | some p =>
          rw [hf] at hlt
          have hpt : p.2 = t := by simpa using hlt
          refine ⟨t, ?_, htid⟩
          rw [hagg]
          exact List.mem_map.2 ⟨p, List.mem_of_find?_eq_some hf, hpt⟩
    · intro s hs
      rw [hagg] at hs
      rcases List.mem_map.1 hs with ⟨p, hp, rfl⟩
      have hid := hw p hp
      rw [hid, ← hlk2 p.1]
      exact dlookup_of_mem_nodup _ p.1 p.2 hnd (by cases p; exact hp)

/-- C1 counterexample: two decoded records share id 1, named "Alpha" then
"Beta"; aggregation keeps one entry whose attributes are those of the
last record ("Beta"), refuting first-occurrence retention. -/
theorem aggregate_shops_keeps_last_not_first :
    aggregateShops demoOuts = [recBeta] ∧ recBeta.name ≠ recAlpha.name :=
  ⟨by decide, by decide⟩

/-- C1 witness: in the duplicated-id example the single aggregated entry
is found as the last matching record of the collected list. -/
theorem aggregate_shops_one_entry_last_wins_witness :
    (collectShops demoOuts).reverse.find?
        (fun t => t.id == recBeta.id) = some recBeta :=
  (aggregate_shops_one_entry_last_wins demoOuts).2.2.2 recBeta (by decide)

/-! Time-allocation lemmas. -/

theorem category_times_ge (c : String) : 15 ≤ category_times c := by
  unfold category_times
  repeat' split
  all_goals norm_num

theorem scaledDuration_none (needed base : Nat) (hb : 15 ≤ base) :
    scaledDuration none needed base = base := by
  simp [scaledDuration, Nat.max_eq_left hb]

theorem scaledDuration_some (b needed base : Nat) (hb : 0 < b)
    (hn : 0 < needed) :
    scaledDuration (some b) needed base = max (base * b / needed) 15 := by
  simp [scaledDuration, hb, hn]

theorem allocRow_length (budget : Option Nat) (needed : Nat) :
    ∀ (shops : List ShopRec) (cur : Nat),
      (∀ s ∈ shops, s.id ≠ none ∧ s.id ≠ some 0) →
      (allocRow budget needed cur shops).length = shops.length := by
  intro shops
  induction shops with
  | nil => intro cur _; rfl
  | cons t rest ih =>
    intro cur hval
    obtain ⟨h1, h2⟩ := hval t (List.mem_cons_self t rest)
    cases hs : t.id with
    | none => exact absurd hs h1
    | some i =>
      have hi : i ≠ 0 := fun h => h2 (by rw [hs, h])
      simp only [allocRow, hs, if_neg hi, List.length_cons, List.length]
      rw [ih _ (fun u hu => hval u (List.mem_cons_of_mem t hu))]

theorem allocRow_entry (budget : Option Nat) (needed : Nat) :
    ∀ (shops : List ShopRec) (cur j : Nat) (s : ShopRec) (p : Nat × Alloc),
      (∀ t ∈ shops, t.id ≠ none ∧ t.id ≠ some 0) →
      shops[j]? = some s →
      (allocRow budget needed cur shops)[j]? = some p →
      p.1 = s.id.getD 0 ∧
      p.2.duration = scaledDuration budget needed (category_times s.category) := by
  intro shops
  induction shops with
  | nil => intro cur j s p _ h; simp at h
  | cons t rest ih =>
    intro cur j s p hval hjs hjp
    obtain ⟨h1, h2⟩ := hval t (List.mem_cons_self t rest)
    cases hs : t.id with
    | none => exact absurd hs h1
    | some i =>
      have hi : i ≠ 0 := fun h => h2 (by rw [hs, h])
      simp only [allocRow, hs, if_neg hi] at hjp
      cases j with
      | zero =>
        simp only [List.getElem?_cons_zero, Option.some.injEq] at hjs hjp
        subst hjs
        subst hjp
        exact ⟨by rw [hs]; rfl, rfl⟩
      | succ j =>
        simp only [List.getElem?_cons_succ] at hjs hjp
        exact ih _ j s p (fun u hu => hval u (List.mem_cons_of_mem t hu))
          hjs hjp

theorem allocRow_head_start (budget : Option Nat) (needed : Nat) :
    ∀ (shops : List ShopRec) (cur : Nat) (p : Nat × Alloc),
      (allocRow budget needed cur shops)[0]? = some p →
      p.2.start = cur := by
  intro shops
  induction shops with
  | nil => intro cur p h; simp [allocRow] at h
  | cons t rest ih =>
    intro cur p h
    cases hs : t.id with
    | none =>
      simp only [allocRow, hs] at h
      exact ih cur p h
    | some i =>
      by_cases hi : i = 0
      · simp only [allocRow, hs, if_pos hi] at h
        exact ih cur p h
      · simp only [allocRow, hs, if_neg hi, List.getElem?_cons_zero,
          Option.some.injEq] at h
        subst h
        rfl

theorem allocRow_finish (budget : Option Nat) (needed : Nat) :
    ∀ (shops : List ShopRec) (cur j : Nat) (p : Nat × Alloc),
      (allocRow budget needed cur shops)[j]? = some p →
      p.2.finish = p.2.start + p.2.duration := by
  intro shops
  induction shops with
  | nil => intro cur j p h; simp [allocRow] at h
  | cons t rest ih =>
    intro cur j p h
    cases hs : t.id with
    | none =>
      simp only [allocRow, hs] at h
      exact ih cur j p h
    | some i =>
      by_cases hi : i = 0
      · simp only [allocRow, hs, if_pos hi] at h
        exact ih cur j p h
      · simp only [allocRow, hs, if_neg hi] at h
        cases j with
        | zero =>
          simp only [List.getElem?_cons_zero, Option.some.injEq] at h
          subst h
          rfl
        | succ j =>
          simp only [List.getElem?_cons_succ] at h
          exact ih _ j p h

theorem allocRow_chain (budget : Option Nat) (needed : Nat) :
    ∀ (shops : List ShopRec) (cur j : Nat) (p q : Nat × Alloc),
      (allocRow budget needed cur shops)[j]? = some p →
      (allocRow budget needed cur shops)[j + 1]? = some q →
      q.2.start = p.2.finish + 5 := by
  intro shops
  induction shops with
  | nil => intro cur j p q h _; simp [allocRow] at h
  | cons t rest ih =>
    intro cur j p q hp hq
    cases hs : t.id with
    | none =>
      simp only [allocRow, hs] at hp hq
      exact ih cur j p q hp hq
    | some i =>
      by_cases hi : i = 0
      · simp only [allocRow, hs, if_pos hi] at hp hq
        exact ih cur j p q hp hq
      · simp only [allocRow, hs, if_neg hi] at hp hq
        cases j with
        | zero =>
          simp only [List.getElem?_cons_zero, Option.some.injEq] at hp
          simp only [List.getElem?_cons_succ] at hq
          subst hp
          exact allocRow_head_start budget needed rest _ q hq
        | succ j =>
          simp only [List.getElem?_cons_succ] at hp hq
          exact ih _ j p q hp hq

theorem allocGo_eq_append (budget : Option Nat) (needed : Nat) :
    ∀ (shops : List ShopRec) (d : List (Nat × Alloc)) (cur : Nat),
      (∀ p ∈ d, ∀ s ∈ shops, s.id ≠ some p.1) →
      ((shops.filterMap (fun s => s.id)).Nodup) →
      allocGo budget needed d cur shops =
        d ++ allocRow budget needed cur shops := by
  intro shops
  induction shops with
  | nil => intro d cur _ _; simp [allocGo, allocRow]
  | cons t rest ih =>
    intro d cur hfresh hnd
    cases hs : t.id with
    | none =>
      have hnd2 : (rest.filterMap (fun s => s.id)).Nodup := by
        simpa [List.filterMap_cons, hs] using hnd
      simp only [allocGo, allocRow, hs]
      exact ih d cur
        (fun p hp s hsr => hfresh p hp s (List.mem_cons_of_mem t hsr)) hnd2
    | some i =>
      have hnd0 : (i :: rest.filterMap (fun s => s.id)).Nodup := by
        simpa [List.filterMap_cons, hs] using hnd
      have hnd2 : (rest.filterMap (fun s => s.id)).Nodup := hnd0.of_cons
      by_cases hi : i = 0
      · simp only [allocGo, allocRow, hs, if_pos hi]
        exact ih d cur
          (fun p hp s hsr => hfresh p hp s (List.mem_cons_of_mem t hsr)) hnd2
      · have hanyf : d.any (fun p => p.1 == i) = false := by
          cases hda : d.any (fun p => p.1 == i) with
          | false => rfl
          | true =>
            rcases List.any_eq_true.1 hda with ⟨p, hp, hpk⟩
            have hpi : p.1 = i := by simpa using hpk
            exact absurd (by rw [hs, hpi])
              (hfresh p hp t (List.mem_cons_self t rest))
        have hdi : ∀ v : Alloc, dinsert d i v = d ++ [(i, v)] := by
          intro v
          simp [dinsert, hanyf]
        have hfresh2 : ∀ v : Alloc, ∀ p ∈ d ++ [(i, v)], ∀ s ∈ rest,
            s.id ≠ some p.1 := by
          intro v p hp s hsr
          rcases List.mem_append.1 hp with hp | hp
          · exact hfresh p hp s (List.mem_cons_of_mem t hsr)
          · rcases List.mem_singleton.1 hp with rfl
            intro hc
            exact (List.nodup_cons.1 hnd0).1
              (List.mem_filterMap.2 ⟨s, hsr, hc⟩)
        simp only [allocGo, allocRow, hs, if_neg hi]
        rw [hdi _, ih _ _ (hfresh2 _) hnd2, List.append_assoc]
        rfl

theorem calculate_time_allocations_eq_row (shops : List ShopRec)
    (budget : Option Nat) (now : Nat)
    (hnd : (shops.filterMap (fun s => s.id)).Nodup) :
    calculate_time_allocations shops budget now =
      allocRow budget (total_needed shops) now shops := by
  unfold calculate_time_allocations
  rw [allocGo_eq_append budget (total_needed shops) shops [] now
    (fun p hp => absurd hp (List.not_mem_nil p)) hnd]
  rfl

theorem total_needed_pos (shops : List ShopRec) (s : ShopRec)
    (hs : s ∈ shops) : 0 < total_needed shops := by
  have h1 : category_times s.category ≤ total_needed shops :=
    List.single_le_sum (fun y _ => Nat.zero_le y) _
      (List.mem_map.2 ⟨s, hs, rfl⟩)
  have h2 := category_times_ge s.category
  omega

/-- C2: for stop lists with present, nonzero, pairwise distinct ids and a
positive budget B, each stop's allocated duration is
`max(floor(base(category) * B / needed), 15)` where `needed` is the sum
of the base durations; with no budget each stop gets exactly its base
duration; the first stop starts at the injected clock value, every stop
ends `duration` after it starts, and each next stop starts exactly 5
minutes after the previous one ends. -/
theorem time_allocation_policy (shops : List ShopRec) (B now : Nat)
    (hB : 0 < B)
    (hval : ∀ s ∈ shops, s.id ≠ none ∧ s.id ≠ some 0)
    (hnd : (shops.filterMap (fun s => s.id)).Nodup) :
    (calculate_time_allocations shops (some B) now).length = shops.length ∧
    (∀ (j : Nat) s p, shops[j]? = some s →
        (calculate_time_allocations shops (some B) now)[j]? = some p →
        p.1 = s.id.getD 0 ∧
        p.2.duration =
          max (category_times s.category * B / total_needed shops) 15) ∧
    (∀ (j : Nat) s p, shops[j]? = some s →
        (calculate_time_allocations shops none now)[j]? = some p →
        p.2.duration = category_times s.category) ∧
    (∀ (budget : Option Nat) p,
        (calculate_time_allocations shops budget now)[0]? = some p →
        p.2.start = now) ∧
    (∀ (budget : Option Nat) (j : Nat) p,
        (calculate_time_allocations shops budget now)[j]? = some p →
        p.2.finish = p.2.start + p.2.duration) ∧
    (∀ (budget : Option Nat) (j : Nat) p q,
        (calculate_time_allocations shops budget now)[j]? = some p →
        (calculate_time_allocations shops budget now)[j + 1]? = some q →
        q.2.start = p.2.finish + 5) := by
  refine ⟨?_, ?_, ?_, ?_, ?_, ?_⟩
  · rw [calculate_time_allocations_eq_row shops (some B) now hnd]
    exact allocRow_length (some B) (total_needed shops) shops now hval
  · intro j s p hjs hjp
    rw [calculate_time_allocations_eq_row shops (some B) now hnd] at hjp
    have hpos : 0 < total_needed shops :=
      total_needed_pos shops s (List.getElem?_mem hjs)
    have h := allocRow_entry (some B) (total_needed shops) shops now j s p
      hval hjs hjp
    rw [scaledDuration_some B (total_needed shops) _ hB hpos] at h
    exact h
  · intro j s p hjs hjp
    rw [calculate_time_allocations_eq_row shops none now hnd] at hjp
    have h := (allocRow_entry none (total_needed shops) shops now j s p
      hval hjs hjp).2
    rw [scaledDuration_none (total_needed shops) _
      (category_times_ge s.category)] at h
    exact h
  · intro budget p hp
    rw [calculate_time_allocations_eq_row shops budget now hnd] at hp
    exact allocRow_head_start budget (total_needed shops) shops now p hp
  · intro budget j p hp
    rw [calculate_time_allocations_eq_row shops budget now hnd] at hp
    exact allocRow_finish budget (total_needed shops) shops now j p hp
  · intro budget j p q hp hq
    rw [calculate_time_allocations_eq_row shops budget now hnd] at hp hq
    exact allocRow_chain budget (total_needed shops) shops now j p q hp hq

/-- C2 witness: on the two demo stops (Fashion base 30, Food base 60,
needed 90) with budget 120, the second stop's duration is
`max(60*120/90, 15) = 80` and it starts 5 minutes after the first ends. -/
theorem time_allocation_policy_witness :
    (0 : Nat) < 120 ∧
    ((⟨2, ⟨80, 45, 125⟩⟩ : Nat × Alloc).1 =
        (ShopRec.mk (some 2) "B" "Food").id.getD 0 ∧
      (⟨2, ⟨80, 45, 125⟩⟩ : Nat × Alloc).2.duration =
        max (category_times "Food" * 120 / total_needed demoStops) 15) :=
  ⟨by decide,
    (time_allocation_policy demoStops 120 0 (by decide) (by decide)
        (by decide)).2.1 1 (ShopRec.mk (some 2) "B" "Food")
      ⟨2, ⟨80, 45, 125⟩⟩ (by decide) (by decide)⟩

/-! Clock dependence of the allocator. -/

theorem map_proj_overwrite (d : List (Nat × Alloc)) (i : Nat) (v : Alloc) :
    (d.map (fun p => if p.1 == i then (i, v) else p)).map
        (fun p => (p.1, p.2.duration)) =
      (d.map (fun p => (p.1, p.2.duration))).map
        (fun q => if q.1 == i then (i, v.duration) else q) := by
  rw [List.map_map, List.map_map]
  apply List.map_congr_left
  intro p _
  by_cases hp : p.1 = i <;> simp [hp]

theorem allocGo_duration_proj (budget : Option Nat) (needed : Nat) :
    ∀ (shops : List ShopRec) (d1 d2 : List (Nat × Alloc)) (cur1 cur2 : Nat),
      d1.map (fun p => (p.1, p.2.duration)) =
        d2.map (fun p => (p.1, p.2.duration)) →
      (allocGo budget needed d1 cur1 shops).map
          (fun p => (p.1, p.2.duration)) =
        (allocGo budget needed d2 cur2 shops).map
          (fun p => (p.1, p.2.duration)) := by
  intro shops
  induction shops with
  | nil => intro d1 d2 cur1 cur2 h; simpa [allocGo] using h
  | cons t rest ih =>
    intro d1 d2 cur1 cur2 h
    cases hs : t.id with
    | none =>
      simp only [allocGo, hs]
      exact ih d1 d2 cur1 cur2 h
    | some i =>
      by_cases hi : i = 0
      · simp only [allocGo, hs, if_pos hi]
        exact ih d1 d2 cur1 cur2 h
      · simp only [allocGo, hs, if_neg hi]
        apply ih
        have hkeys : d1.map (fun p => p.1) = d2.map (fun p => p.1) := by
          have h2 := congrArg (fun l => l.map (fun q : Nat × Nat => q.1)) h
          simpa [List.map_map] using h2
        have hany : d1.any (fun p => p.1 == i) =
            d2.any (fun p => p.1 == i) := by
          have e0 : ∀ (d : List (Nat × Alloc)),
              d.any (fun p => p.1 == i) =
                (d.map (fun p => p.1)).any (fun k => k == i) := by
            intro d
            induction d with
            | nil => rfl
            | cons p ps ihd => simp [List.any_cons, ihd]
          rw [e0 d1, e0 d2, hkeys]
        by_cases ha : d1.any (fun p => p.1 == i)
        · have ha2 : d2.any (fun p => p.1 == i) = true := by
            rw [← hany]
            exact ha
          have e1 : ∀ v : Alloc, dinsert d1 i v =
              d1.map (fun p => if p.1 == i then (i, v) else p) := by
            intro v
            simp [dinsert, ha]
          have e2 : ∀ v : Alloc, dinsert d2 i v =
              d2.map (fun p => if p.1 == i then (i, v) else p) := by
            intro v
            simp [dinsert, ha2]
          rw [e1, e2, map_proj_overwrite, map_proj_overwrite, h]
        · have ha1 : d1.any (fun p => p.1 == i) = false := by
            cases hda : d1.any (fun p => p.1 == i)
            · rfl
            · exact absurd hda ha
          have ha2 : d2.any (fun p => p.1 == i) = false := by
            rw [← hany]
            exact ha1
          have e1 : ∀ v : Alloc, dinsert d1 i v = d1 ++ [(i, v)] := by
            intro v
            simp [dinsert, ha1]
          have e2 : ∀ v : Alloc, dinsert d2 i v = d2 ++ [(i, v)] := by
            intro v
            simp [dinsert, ha2]
          rw [e1, e2, List.map_append, List.map_append, h]
          simp

/-- C9 (amended): the allocator's per-stop durations (and entry keys) are
a deterministic function of the stop list and budget alone — two runs
whose internal clock readings differ still agree on every duration — but
the computed start and end times follow the clock value the source reads
from `datetime.now()`, which is not an injectable parameter. -/
theorem allocator_durations_clock_free (shops : List ShopRec)
    (budget : Option Nat) (now1 now2 : Nat) :
    (calculate_time_allocations shops budget now1).map
        (fun p => (p.1, p.2.duration)) =
      (calculate_time_allocations shops budget now2).map
        (fun p => (p.1, p.2.duration)) :=
  allocGo_duration_proj budget (total_needed shops) shops [] [] now1 now2 rfl

/-- C9 counterexample: identical stop list and budget, but the run whose
`datetime.now()` reads 60 minutes later produces different start/end
clock times — the allocations are not identical, refuting independence
from the real wall clock — while every duration agrees. -/
theorem allocator_depends_on_wall_clock :
    calculate_time_allocations demoStops none 0 ≠
      calculate_time_allocations demoStops none 60 ∧
    (calculate_time_allocations demoStops none 0).map
        (fun p => (p.1, p.2.duration)) =
      (calculate_time_allocations demoStops none 60).map
        (fun p => (p.1, p.2.duration)) :=
  ⟨by decide, by decide⟩

/-! Verifier lemmas. -/

theorem foldl_and_eq_all (checks : List Check) :
    checks.foldl (fun v c => v && c.passed) true =
      checks.all (fun c => c.passed) := by
  suffices h : ∀ (l : List Check) (b : Bool),
      l.foldl (fun v c => v && c.passed) b =
        (b && l.all (fun c => c.passed)) by
    rw [h checks true, Bool.true_and]
  intro l
  induction l with
  | nil =>
    intro b
    rw [List.foldl_nil, List.all_nil, Bool.and_true]
  | cons c rest ih =>
    intro b
    rw [List.foldl_cons, ih (b && c.passed), List.all_cons, Bool.and_assoc]

/-- C3 (amended): for stop-id sets resolving to at least one catalog
stop, the verifier appends one record per present constraint key — except
`lower_floors_only`, recorded only when its value is true — with the
stated semantics (distinct floors vs `max_floors`, 15n + 3f vs
`max_time_minutes`, category-subset for `required_categories`, max floor
at most 2 for `lower_floors_only`), and the verdict is the AND of the
recorded results; a set resolving to no stop instead yields an error
result with verdict false and no records. -/
theorem verify_route_semantics (catalog : List CShop) (ids : List Nat)
    (cs : Constraints)
    (hne : resolveByMembership catalog ids ≠ []) :
    (verify_route catalog ids cs).error = none ∧
    (verify_route catalog ids cs).verified =
      (verify_route catalog ids cs).checks.all (fun c => c.passed) ∧
    ((verify_route catalog ids cs).checks.map (fun c => c.constraint) =
      (match cs.max_floors with
       | some _ => ["max_floors"] | none => []) ++
      (match cs.max_time_minutes with
       | some _ => ["max_time_minutes"] | none => []) ++
      (match cs.required_categories with
       | some _ => ["required_categories"] | none => []) ++
      (match cs.lower_floors_only with
       | some true => ["lower_floors_only"] | _ => [])) ∧
    (∀ m, cs.max_floors = some m →
      Check.mk "max_floors" (.nat m)
          (.nat (((resolveByMembership catalog ids).map
            (·.floor)).toFinset.card))
          (decide ((((resolveByMembership catalog ids).map
            (·.floor)).toFinset.card) ≤ m)) ∈
        (verify_route catalog ids cs).checks) ∧
    (∀ m, cs.max_time_minutes = some m →
      Check.mk "max_time_minutes" (.nat m)
          (.nat ((resolveByMembership catalog ids).length * 15 +
            (((resolveByMembership catalog ids).map
              (·.floor)).toFinset.card) * 3))
          (decide ((resolveByMembership catalog ids).length * 15 +
            (((resolveByMembership catalog ids).map
              (·.floor)).toFinset.card) * 3 ≤ m)) ∈
        (verify_route catalog ids cs).checks) ∧
    (∀ req, cs.required_categories = some req →
      Check.mk "required_categories" (.strs req.dedup)
          (.strs (categoriesOf (resolveByMembership catalog ids)))
          (req.all (fun c =>
            (categoriesOf (resolveByMembership catalog ids)).contains c)) ∈
        (verify_route catalog ids cs).checks) ∧
    (cs.lower_floors_only = some true →
      Check.mk "lower_floors_only" (.str "Floors 1-2")
          (.str ("Max floor " ++
            toString (maxFloor (resolveByMembership catalog ids))))
          (decide (maxFloor (resolveByMembership catalog ids) ≤ 2)) ∈
        (verify_route catalog ids cs).checks) := by
  have he : (resolveByMembership catalog ids).isEmpty = false := by
    cases hr : resolveByMembership catalog ids
    · exact absurd hr hne
    · rfl
  have hres : verify_route catalog ids cs =
      { verified := (verifyChecks (resolveByMembership catalog ids)
            cs).foldl (fun v c => v && c.passed) true
        error := none
        checks := verifyChecks (resolveByMembership catalog ids) cs } := by
    simp [verify_route, he]
  rw [hres]
  refine ⟨rfl, foldl_and_eq_all _, ?_, ?_, ?_, ?_, ?_⟩
  · unfold verifyChecks
    rw [List.map_append, List.map_append, List.map_append]
    have h1 : (match cs.max_floors with
        | some m =>
          [Check.mk "max_floors" (.nat m)
            (.nat (distinctFloors (resolveByMembership catalog ids)))
            (decide (distinctFloors (resolveByMembership catalog ids) ≤ m))]
        | none => ([] : List Check)).map (fun c : Check => c.constraint) =
        (match cs.max_floors with
         | some _ => ["max_floors"] | none => []) := by
      rcases cs.max_floors with _ | m <;> rfl
    have h2 : (match cs.max_time_minutes with
        | some m =>
          [Check.mk "max_time_minutes" (.nat m)
            (.nat ((resolveByMembership catalog ids).length * 15 +
              distinctFloors (resolveByMembership catalog ids) * 3))
            (decide ((resolveByMembership catalog ids).length * 15 +
              distinctFloors (resolveByMembership catalog ids) * 3 ≤ m))]
        | none => ([] : List Check)).map (fun c : Check => c.constraint) =
        (match cs.max_time_minutes with
         | some _ => ["max_time_minutes"] | none => []) := by
      rcases cs.max_time_minutes with _ | m <;> rfl
    have h3 : (match cs.required_categories with
        | some req =>
          [Check.mk "required_categories" (.strs req.dedup)
            (.strs (categoriesOf (resolveByMembership catalog ids)))
            (req.all (fun c =>
              (categoriesOf (resolveByMembership catalog ids)).contains c))]
        | none => ([] : List Check)).map (fun c : Check => c.constraint) =
        (match cs.required_categories with
         | some _ => ["required_categories"] | none => []) := by
      rcases cs.required_categories with _ | req <;> rfl
    have h4 : (match cs.lower_floors_only with
        | some true =>
          [Check.mk "lower_floors_only" (.str "Floors 1-2")
            (.str ("Max floor " ++
              toString (maxFloor (resolveByMembership catalog ids))))
            (decide (maxFloor (resolveByMembership catalog ids) ≤ 2))]
        | _ => ([] : List Check)).map (fun c : Check => c.constraint) =
        (match cs.lower_floors_only with
         | some true => ["lower_floors_only"] | _ => []) := by
      rcases cs.lower_floors_only with _ | b
      · rfl
      · cases b <;> rfl
    rw [h1, h2, h3, h4]
  · intro m hm
    simp [verifyChecks, hm, ← distinctFloors_eq_card]
  · intro m hm
    simp [verifyChecks, hm, ← distinctFloors_eq_card]
  · intro req hreq
    simp [verifyChecks, hreq]
  · intro hlf
    simp [verifyChecks, hlf]

/-- C3 counterexample: with `lower_floors_only` present but false the
verifier records no check at all, although the claim requires a record
for every present key; and an unresolvable stop set yields verdict false
with zero evaluated checks, although the AND over zero evaluated
constraints is true. -/
theorem verify_route_present_key_and_empty_deviation :
    (verify_route demoCatalog [1]
        { lower_floors_only := some false }).checks = [] ∧
    (verify_route demoCatalog [] {}).verified = false ∧
    ((verify_route demoCatalog [] {}).checks.all (fun c => c.passed)) =
      true :=
  ⟨by decide, by decide, by decide⟩

/-- C3 witness: on the demo catalog with both shops resolved and a
max-floors bound, the verdict equals the AND of the recorded checks. -/
theorem verify_route_semantics_witness :
    resolveByMembership demoCatalog [1, 2] ≠ [] ∧
    (verify_route demoCatalog [1, 2] { max_floors := some 1 }).verified =
      (verify_route demoCatalog [1, 2]
          { max_floors := some 1 }).checks.all (fun c => c.passed) :=
  ⟨by decide,
    (verify_route_semantics demoCatalog [1, 2] { max_floors := some 1 }
        (by decide)).2.1⟩

end MallAgent
